import Mathlib

/-
Verification of the concurrent keyword-search scraping engine of the
yargitay-scraper-api service (vlikcc/yargisalzekav2).

The definitions below are a shallow embedding of the Python sources:
  app/search_logic.py  — per-keyword search session (row processing, pagination)
  app/main.py          — dispatcher, aggregation/dedup, in-memory cache
  app/firestore_db.py  — Firestore-backed search cache (get/save with TTL)

External effects (the Selenium driver, the Firestore document store, wall-clock
time) are modelled as explicit oracle data / state threaded through the
functions; machine floats (processing times) are modelled as abstract Nat
ticks, since no claim depends on float rounding.
-/

set_option autoImplicit false

namespace Yargitay

/-- Structured fields extracted from one result row by extract_row_data
(search_logic.py:27-41): columns 1..4 of the row. -/
structure RowData where
  daire : String
  esas_no : String
  karar_no : String
  karar_tarihi : String
deriving Repr, DecidableEq

/-- ResultItem (schemas.py:9-15): one scraped decision record. -/
structure ResultItem where
  daire : String
  esas_no : String
  karar_no : String
  karar_tarihi : String
  karar_metni : String
  keyword : String
deriving Repr, DecidableEq

/-- Outcome of reading the detail pane for one activated row, as observed by
get_decision_text (search_logic.py:43-59): the pane text, a TimeoutException,
or any other exception. -/
inductive DetailResult where
  | text (s : String)
  | timeout
  | err
deriving Repr, DecidableEq

/-- get_decision_text (search_logic.py:43-59): returns the pane text, or the
fixed placeholder strings on timeout / unexpected error. It never raises. -/
def get_decision_text : DetailResult → String
  | .text s => s
  | .timeout => "Karar metni bulunamadı."
  | .err => "Karar metni alınamadı."

/-- Behaviour of one result row in process_page_rows (search_logic.py:88-125):
extract_row_data returns None; the scroll/click raises (caught, row skipped);
or the row activates and the detail pane read yields a DetailResult. -/
inductive Row where
  | noData
  | clickFails (d : RowData)
  | withDetail (d : RowData) (det : DetailResult)
deriving Repr, DecidableEq

/-- Case identifier as computed at search_logic.py:100:
f"{esas_no}-{karar_no}". -/
def caseId (d : RowData) : String := d.esas_no ++ "-" ++ d.karar_no

/-- ResultItem construction at search_logic.py:116:
ResultItem(**row_data, karar_metni=..., keyword=...). -/
def mkResultItem (d : RowData) (metni kw : String) : ResultItem :=
  ⟨d.daire, d.esas_no, d.karar_no, d.karar_tarihi, metni, kw⟩

/-- process_page_rows (search_logic.py:72-132): iterates the page's rows once,
breaking when found_count reaches the target, skipping rows with no data or
already-processed case ids, and otherwise appending a ResultItem (whose text
may be a placeholder, per get_decision_text), recording the case id and
incrementing found_count. Returns the updated
(found_count, processed_cases, results); in Python processed_cases and results
are mutated in place and only found_count is returned. -/
def process_page_rows (target : Nat) (kw : String) :
    List Row → Nat → List String → List ResultItem → Nat × List String × List ResultItem
  | [], fc, pc, res => (fc, pc, res)
  | r :: rs, fc, pc, res =>
    if fc ≥ target then (fc, pc, res)
    else
      match r with
      | .noData => process_page_rows target kw rs fc pc res
      | .clickFails d =>
        if caseId d ∈ pc then process_page_rows target kw rs fc pc res
        else process_page_rows target kw rs fc pc res
      | .withDetail d det =>
        if caseId d ∈ pc then process_page_rows target kw rs fc pc res
        else
          process_page_rows target kw rs (fc + 1) (pc ++ [caseId d])
            (res ++ [mkResultItem d (get_decision_text det) kw])

/-- Outcome of the pagination step at the bottom of the page loop
(search_logic.py:191-211): the "next page" anchor is missing
(NoSuchElementException → break), present but disabled (→ break), clicking or
waiting raises (→ break), or navigation succeeds (page_number += 1, loop). -/
inductive NextOutcome where
  | absent
  | disabled
  | navFails
  | enabled
deriving Repr, DecidableEq

/-- What one result page offers: its snapshot of rows and the behaviour of the
"next page" control afterwards. -/
structure PageOutcome where
  rows : List Row
  next : NextOutcome
deriving Repr, DecidableEq

/-- The mutable state of the page loop of search_single_keyword
(search_logic.py:158-211), plus two ghost observations: visited counts the
result pages navigated to so far (1 after the initial results load, +1 per
successful next-page navigation) and processedPages counts the pages whose
rows were handed to process_page_rows. -/
structure LoopState where
  fc : Nat
  pc : List String
  res : List ResultItem
  page : Nat
  visited : Nat
  processedPages : Nat
deriving Repr, DecidableEq

/-- How the page loop ended: normally, or via an unhandled exception that
escapes to the outer handler at search_logic.py:216 (the state at the moment
of the fault is kept as a ghost for specification purposes; the code itself
discards it). -/
inductive LoopResult where
  | ok (s : LoopState)
  | fatal (msg : String) (s : LoopState)
deriving Repr, DecidableEq

/-- The loop state carried by a LoopResult. -/
def LoopResult.state : LoopResult → LoopState
  | .ok s => s
  | .fatal _ s => s

/-- Whether the loop ended in the fatal (unhandled-exception) case. -/
def LoopResult.isFatal : LoopResult → Bool
  | .ok _ => false
  | .fatal _ _ => true

/-- Countdown for the injected fatal fault: decrements once per page-loop
iteration. -/
def decrFatal : Option Nat → Option Nat
  | none => none
  | some n => some (n - 1)

/-- The while-loop of search_single_keyword (search_logic.py:182-211):
while found_count < target and page_number <= max_pages: process the current
page's rows; break if the target is reached; then locate the next-page
control — on absence, a disabled class, or any exception, break; otherwise
click it (a navigation: ghost visited+1), wait, increment page_number and
continue. The list argument supplies the successive pages the site serves.
fatalAt injects an unhandled fault (e.g. a MemoryError) at the start of the
n-th executed iteration, modelling the only way control can reach the outer
except-handler from inside the loop. -/
def sessionLoop (target maxPages : Nat) (kw fatalMsg : String) :
    List PageOutcome → Option Nat → LoopState → LoopResult
  | [], _, s => .ok s
  | p :: rest, fa, s =>
    if s.fc ≥ target ∨ s.page > maxPages then .ok s
    else if fa = some 0 then .fatal fatalMsg s
    else
      let t := process_page_rows target kw p.rows s.fc s.pc s.res
      let s1 : LoopState :=
        ⟨t.1, t.2.1, t.2.2, s.page, s.visited, s.processedPages + 1⟩
      if t.1 ≥ target then .ok s1
      else
        match p.next with
        | .enabled =>
          sessionLoop target maxPages kw fatalMsg rest (decrFatal fa)
            { s1 with page := s1.page + 1, visited := s1.visited + 1 }
        | _ => .ok s1

/-- Loop state right after the results container is confirmed
(search_logic.py:158-181): empty collections, page_number = 1; ghost counters:
one page visited, none processed yet. -/
def initLoopState : LoopState := ⟨0, [], [], 1, 1, 0⟩

/-- Driver-side behaviour of one whole session, as observed by
search_single_keyword: a fatal fault before the results wait (driver creation,
retry-exhausted initial load, search box/button interaction —
search_logic.py:146-172); or the query goes through and either the results
container times out (resultsAppear = false, search_logic.py:174-179) or the
page loop runs over the served pages, with an optional injected unhandled
fault. -/
inductive SessionScript where
  | initFail (msg : String)
  | run (resultsAppear : Bool) (pages : List PageOutcome)
      (fatalAt : Option Nat) (fatalMsg : String)
deriving Repr, DecidableEq

/-- The tuple returned by search_single_keyword
(keyword, results, success, message). -/
structure SessionResult where
  keyword : String
  results : List ResultItem
  success : Bool
  message : String
deriving Repr, DecidableEq

/-- search_single_keyword (search_logic.py:137-223). Fatal faults return
(keyword, [], False, msg) — both at line 218 (the literal empty list discards
anything already collected) and on init failure; a results-container timeout
returns (keyword, [], True, "Sonuç bulunamadı") at line 179; a normal loop
exit returns (keyword, results, True, f"{found_count} sonuç bulundu.") at
line 214. -/
def search_single_keyword (target maxPages : Nat) (kw : String)
    (script : SessionScript) : SessionResult :=
  match script with
  | .initFail msg => ⟨kw, [], false, msg⟩
  | .run false _ _ _ => ⟨kw, [], true, "Sonuç bulunamadı"⟩
  | .run true pages fa fatalMsg =>
    match sessionLoop target maxPages kw fatalMsg pages fa initLoopState with
    | .ok s => ⟨kw, s.res, true, toString s.fc ++ " sonuç bulundu."⟩
    | .fatal m _ => ⟨kw, [], false, m⟩

/-- One value of the search_details map built at main.py:153-157:
{"success": ..., "count": len(results), "message": ...}. -/
structure Outcome where
  success : Bool
  count : Nat
  message : String
deriving Repr, DecidableEq

/-- One entry of the final aggregated result list: the ResultItem fields after
the result_dict.update at main.py:173-180 added the API-compatibility
fields. -/
structure EnrichedItem where
  daire : String
  esas_no : String
  karar_no : String
  karar_tarihi : String
  karar_metni : String
  keyword : String
  case_number : String
  title : String
  content : String
  date : String
  court : String
  url : String
deriving Repr, DecidableEq

/-- The result_dict.update at main.py:173-180: case_number := esas_no,
title := f"{daire} - {karar_no}", content := karar_metni,
date := karar_tarihi, court := daire, url := prefix + esas_no. -/
def enrich (r : ResultItem) : EnrichedItem :=
  ⟨r.daire, r.esas_no, r.karar_no, r.karar_tarihi, r.karar_metni, r.keyword,
    r.esas_no, r.daire ++ " - " ++ r.karar_no, r.karar_metni, r.karar_tarihi,
    r.daire,
    "https://karararama.yargitay.gov.tr/YargitayBilgiBankasiIstemciWeb/#"
      ++ r.esas_no⟩

/-- The dedup key looked up at main.py:170:
result_dict.get("case_number", result_dict.get("esas_no", "unknown")) — a
ResultItem dump has no "case_number" key, so the key is esas_no alone. -/
def dedupKey (r : ResultItem) : String := r.esas_no

/-- The unique_results insertion-ordered dict built by the loop at
main.py:160-181: for each raw result in order, if its dedup key is not yet a
key of the dict, append (key, enriched item). -/
def aggFold : List ResultItem → List (String × EnrichedItem) → List (String × EnrichedItem)
  | [], acc => acc
  | r :: rs, acc =>
    if acc.any (fun p => p.1 = dedupKey r) then aggFold rs acc
    else aggFold rs (acc ++ [(dedupKey r, enrich r)])

/-- all_results (main.py:140,152): the session result lists concatenated in
completion order. -/
def allResults (completions : List SessionResult) : List ResultItem :=
  (completions.map fun c => c.results).flatten

/-- final_results = list(unique_results.values()) (main.py:183). -/
def aggFinalResults (completions : List SessionResult) : List EnrichedItem :=
  (aggFold (allResults completions) []).map Prod.snd

/-- search_details (main.py:153-157): keyword ↦
{success, count = len(raw results), message}, in completion order. -/
def mkSearchDetails (completions : List SessionResult) : List (String × Outcome) :=
  completions.map fun c => (c.keyword, ⟨c.success, c.results.length, c.message⟩)

/-- Independent characterization of first-seen-wins dedup: keep each raw item
whose key has not already appeared in the kept prefix. -/
def firstOccAux (key : ResultItem → String) :
    List ResultItem → List ResultItem → List ResultItem
  | [], acc => acc
  | r :: rs, acc =>
    if acc.any (fun a => key a = key r) then firstOccAux key rs acc
    else firstOccAux key rs (acc ++ [r])

/-- First occurrences of each dedup key, in order of first appearance. -/
def firstOccurrence (key : ResultItem → String) (l : List ResultItem) :
    List ResultItem :=
  firstOccAux key l []

/-- Modelled from the spec: the aggregation the claim describes, deduplicating
by the composite case identifier case_number + decision_number
(esas_no-karar_no) instead of the key the source uses; stated only to be
compared against aggFinalResults. -/
def specAggFinalResults (completions : List SessionResult) : List EnrichedItem :=
  (firstOccurrence (fun r => r.esas_no ++ "-" ++ r.karar_no)
    (allResults completions)).map enrich

/-- Lexicographic comparison of char lists by code point, the order Python's
sorted() applies to strings. -/
def charsLe : List Char → List Char → Bool
  | [], _ => true
  | _ :: _, [] => false
  | a :: as, b :: bs =>
    if a.toNat < b.toNat then true
    else if b.toNat < a.toNat then false
    else charsLe as bs

/-- String comparison by code points, as Python's sorted() orders strings. -/
def strLe (a b : String) : Bool := charsLe a.data b.data

/-- Insert into a sorted list (stable, like Python's sorted). -/
def insertSorted (x : String) : List String → List String
  | [] => [x]
  | y :: ys => if strLe x y then x :: y :: ys else y :: insertSorted x ys

/-- sorted(keywords) as used by both cache key derivations. -/
def sortStrings (l : List String) : List String := l.foldr insertSorted []

/-- generate_cache_key (main.py:73-76): md5 of ",".join(sorted(keywords)).
The md5 digest is modelled by the joined string itself — a deterministic,
injective stand-in for a collision-resistant hash. -/
def genCacheKey (keywords : List String) : String :=
  String.intercalate "," (sortStrings keywords)

/-- The Firestore cache key (firestore_db.py:183-184, 212-213): md5 of
"_".join(sorted(keywords)), with the md5 modelled as for genCacheKey. -/
def fsKey (keywords : List String) : String :=
  String.intercalate "_" (sortStrings keywords)

/-- One search_cache document (firestore_db.py:186-196); fields not read by
any claim (keywords list, last_used) are omitted, times are abstract Nat
ticks. expires_at is created_at + the 7-day TTL. -/
structure FsEntry where
  search_results : List EnrichedItem
  search_duration : Nat
  hit_count : Nat
  created_at : Nat
  expires_at : Nat
deriving Repr, DecidableEq

/-- The 7-day TTL of a Firestore cache entry (firestore_db.py:195,
timedelta(days=7)), in seconds. -/
def fsTTL : Nat := 604800

/-- Association-list lookup (Python dict / document-by-id access). -/
def lookupA {α : Type} : List (String × α) → String → Option α
  | [], _ => none
  | (k, v) :: rest, key => if k = key then some v else lookupA rest key

/-- Remove a key (document delete). -/
def removeA {α : Type} : List (String × α) → String → List (String × α)
  | [], _ => []
  | (k, v) :: rest, key =>
    if k = key then removeA rest key else (k, v) :: removeA rest key

/-- Insert-or-replace (doc_ref.set / dict assignment): replaces in place if
the key exists, appends otherwise. -/
def setA {α : Type} : List (String × α) → String → α → List (String × α)
  | [], key, v => [(key, v)]
  | (k, w) :: rest, key, v =>
    if k = key then (key, v) :: rest else (k, w) :: setA rest key v

/-- get_search_cache (firestore_db.py:209-238): look the document up by key;
if present and expires_at > now, bump hit_count and return the entry;
if present but expired, delete it and report a miss; return the possibly
updated store alongside. -/
def fsGet (cache : List (String × FsEntry)) (key : String) (now : Nat) :
    Option FsEntry × List (String × FsEntry) :=
  match lookupA cache key with
  | none => (none, cache)
  | some e =>
    if now < e.expires_at then
      (some e, setA cache key { e with hit_count := e.hit_count + 1 })
    else
      (none, removeA cache key)

/-- save_search_cache (firestore_db.py:172-207): overwrite the document at the
key with a fresh entry whose expires_at is now + 7 days. -/
def fsSave (cache : List (String × FsEntry)) (key : String)
    (results : List EnrichedItem) (duration now : Nat) :
    List (String × FsEntry) :=
  setA cache key ⟨results, duration, 1, now, now + fsTTL⟩

/-- The SearchResponse payload assembled by the /search endpoint
(main.py:192-200 and the two cache-hit returns). -/
structure SearchResponse where
  results : List EnrichedItem
  success : Bool
  message : String
  search_details : List (String × Outcome)
  processing_time : Nat
  total_keywords : Nat
  unique_results : Nat
deriving Repr, DecidableEq

/-- The shared mutable state the /search endpoint reads and writes: whether
the Firestore client is available (firestore_manager.client), the Firestore
search_cache collection, and the in-memory search_cache dict (main.py:32). -/
structure ScraperState where
  fsOn : Bool
  fsCache : List (String × FsEntry)
  memCache : List (String × SearchResponse)
deriving Repr, DecidableEq

/-- Result of one /search call: the response, the updated shared state, and
whether the dispatcher actually ran sessions (i.e. the Page Automation Driver
was invoked) rather than short-circuiting on a cache hit. -/
structure CallResult where
  response : SearchResponse
  state : ScraperState
  driverInvoked : Bool
deriving Repr, DecidableEq

/-- Message of the Firestore cache-hit response (main.py:123). -/
def fsHitMessage (n : Nat) : String :=
  "Cache'den döndürüldü. " ++ toString n ++ " sonuç bulundu."

/-- Message of a fresh dispatch response (main.py:195); the float elapsed-time
text is rendered from the abstract tick count. -/
def dispatchMessage (elapsed n : Nat) : String :=
  "Paralel arama " ++ toString elapsed ++ " saniyede tamamlandı. "
    ++ toString n ++ " unique sonuç bulundu."

/-- search_yargitay_parallel (main.py:105-242), with the blocking scrape
abstracted: completions is the list of per-keyword session results in
as_completed order, elapsed the measured wall-clock ticks, now the current
time. Control flow, in source order: Firestore cache check (hit returns the
stored results with empty search_details and the stored duration as
processing_time); in-memory cache check (hit returns the stored response
verbatim); otherwise dispatch, aggregate and dedup, save to Firestore (only
when the client is up and final_results is non-empty), save to the in-memory
dict only when it holds fewer than 100 entries, and return. -/
def searchCall (st : ScraperState) (now : Nat) (keywords : List String)
    (completions : List SessionResult) (elapsed : Nat) : CallResult :=
  match (if st.fsOn then fsGet st.fsCache (fsKey keywords) now
         else (none, st.fsCache)) with
  | (some e, fsC) =>
    { response :=
        { results := e.search_results, success := true,
          message := fsHitMessage e.search_results.length,
          search_details := [], processing_time := e.search_duration,
          total_keywords := keywords.length,
          unique_results := e.search_results.length },
      state := { st with fsCache := fsC }, driverInvoked := false }
  | (none, fsC) =>
    match lookupA st.memCache (genCacheKey keywords) with
    | some r =>
      { response := r, state := { st with fsCache := fsC },
        driverInvoked := false }
    | none =>
      let fin := aggFinalResults completions
      let resp : SearchResponse :=
        { results := fin, success := true,
          message := dispatchMessage elapsed fin.length,
          search_details := mkSearchDetails completions,
          processing_time := elapsed, total_keywords := keywords.length,
          unique_results := fin.length }
      let fsC2 := if st.fsOn = true ∧ fin ≠ [] then
          fsSave fsC (fsKey keywords) fin elapsed now
        else fsC
      let mem2 := if st.memCache.length < 100 then
          st.memCache ++ [(genCacheKey keywords, resp)]
        else st.memCache
      { response := resp, state := ⟨st.fsOn, fsC2, mem2⟩,
        driverInvoked := true }

/-- State of the worker pool dispatching one session per keyword
(main.py:145-151): keywords not yet started, keywords whose session is
currently running, and keywords whose session has completed (in completion
order, newest first). -/
structure PoolState where
  pending : List String
  running : List String
  done : List String
deriving Repr, DecidableEq

/-- max_workers = min(len(keywords), 10) (main.py:139). -/
def dispatcherMaxWorkers (keywords : List String) : Nat :=
  min keywords.length 10

/-- Modelled from the spec: the scheduling of the bounded worker pool backing
the dispatcher ("a bounded worker pool / task group runs up to MAX_CONCURRENCY
Search Sessions in parallel; additional keywords queue until a slot frees"),
since the executor's internals are library code outside this repository.
A step either starts the next queued keyword — only when fewer than maxW
sessions are running — or completes any currently running session (completions
arrive in arbitrary order, as asyncio.as_completed observes them). -/
inductive PoolStep (maxW : Nat) : PoolState → PoolState → Prop
  | start (p : String) (ps running done : List String) :
      running.length < maxW →
      PoolStep maxW ⟨p :: ps, running, done⟩ ⟨ps, p :: running, done⟩
  | finish (x : String) (r1 r2 pending done : List String) :
      PoolStep maxW ⟨pending, r1 ++ x :: r2, done⟩
        ⟨pending, r1 ++ r2, x :: done⟩

/-- Reachability of pool states by any number of scheduling steps. -/
def PoolReach (maxW : Nat) : PoolState → PoolState → Prop :=
  Relation.ReflTransGen (PoolStep maxW)

/-- The dispatch of main.py:145-149 submits every keyword, none running or
done yet. -/
def initPool (keywords : List String) : PoolState := ⟨keywords, [], []⟩

/-! Lemmas about row processing. -/

theorem process_page_rows_fc_mono (t : Nat) (kw : String) :
    ∀ (rows : List Row) (fc : Nat) (pc : List String) (res : List ResultItem),
    fc ≤ (process_page_rows t kw rows fc pc res).1 := by
  intro rows
  induction rows with
  | nil => intro fc pc res; simp [process_page_rows]
  | cons r rs ih =>
    intro fc pc res
    cases r with
    | noData =>
      simp only [process_page_rows]
      split
      · simp
      · exact ih fc pc res
    | clickFails d =>
      simp only [process_page_rows]
      split
      · simp
      · split
        · exact ih fc pc res
        · exact ih fc pc res
    | withDetail d det =>
      simp only [process_page_rows]
      split
      · simp
      · split
        · exact ih fc pc res
        · exact Nat.le_trans (Nat.le_succ fc) (ih (fc + 1) _ _)

theorem process_page_rows_stop (t : Nat) (kw : String)
    (rows : List Row) (fc : Nat) (pc : List String) (res : List ResultItem)
    (h : t ≤ fc) :
    process_page_rows t kw rows fc pc res = (fc, pc, res) := by
  cases rows with
  | nil => simp [process_page_rows]
  | cons r rs => simp [process_page_rows, h]

theorem process_page_rows_fc_le (t : Nat) (kw : String) :
    ∀ (rows : List Row) (fc : Nat) (pc : List String) (res : List ResultItem),
    fc ≤ t → (process_page_rows t kw rows fc pc res).1 ≤ t := by
  intro rows
  induction rows with
  | nil => intro fc pc res h; simpa [process_page_rows] using h
  | cons r rs ih =>
    intro fc pc res h
    cases r with
    | noData =>
      simp only [process_page_rows]
      split
      · exact h
      · exact ih fc pc res h
    | clickFails d =>
      simp only [process_page_rows]
      split
      · exact h
      · split
        · exact ih fc pc res h
        · exact ih fc pc res h
    | withDetail d det =>
      simp only [process_page_rows]
      split
      · exact h
      · rename_i hlt
        have hfc : fc < t := by omega
        split
        · exact ih fc pc res h
        · exact ih (fc + 1) _ _ hfc

theorem process_page_rows_len (t : Nat) (kw : String) :
    ∀ (rows : List Row) (fc : Nat) (pc : List String) (res : List ResultItem),
    (process_page_rows t kw rows fc pc res).2.2.length + fc
      = res.length + (process_page_rows t kw rows fc pc res).1 := by
  intro rows
  induction rows with
  | nil => intro fc pc res; simp [process_page_rows]
  | cons r rs ih =>
    intro fc pc res
    cases r with
    | noData =>
      simp only [process_page_rows]
      split
      · simp
      · exact ih fc pc res
    | clickFails d =>
      simp only [process_page_rows]
      split
      · simp
      · split
        · exact ih fc pc res
        · exact ih fc pc res
    | withDetail d det =>
      simp only [process_page_rows]
      split
      · simp
      · split
        · exact ih fc pc res
        · have h := ih (fc + 1) (pc ++ [caseId d])
            (res ++ [mkResultItem d (get_decision_text det) kw])
          simp only [List.length_append, List.length_cons, List.length_nil] at h
          omega

/-! Lemmas about the page loop. -/

theorem sessionLoop_fc_mono (t mp : Nat) (kw m : String) :
    ∀ (ps : List PageOutcome) (fa : Option Nat) (s : LoopState),
    s.fc ≤ ((sessionLoop t mp kw m ps fa s).state).fc := by
  intro ps
  induction ps with
  | nil => intro fa s; simp [sessionLoop, LoopResult.state]
  | cons p rest ih =>
    intro fa s
    simp only [sessionLoop]
    split
    · simp [LoopResult.state]
    · split
      · simp [LoopResult.state]
      · have hm := process_page_rows_fc_mono t kw p.rows s.fc s.pc s.res
        split
        · simpa [LoopResult.state] using hm
        · split
          · refine Nat.le_trans hm ?_
            exact ih (decrFatal fa)
              ⟨(process_page_rows t kw p.rows s.fc s.pc s.res).1,
                (process_page_rows t kw p.rows s.fc s.pc s.res).2.1,
                (process_page_rows t kw p.rows s.fc s.pc s.res).2.2,
                s.page + 1, s.visited + 1, s.processedPages + 1⟩
          · simpa [LoopResult.state] using hm

theorem sessionLoop_fc_le (t mp : Nat) (kw m : String) :
    ∀ (ps : List PageOutcome) (fa : Option Nat) (s : LoopState),
    s.fc ≤ t → ((sessionLoop t mp kw m ps fa s).state).fc ≤ t := by
  intro ps
  induction ps with
  | nil => intro fa s h; simpa [sessionLoop, LoopResult.state] using h
  | cons p rest ih =>
    intro fa s h
    simp only [sessionLoop]
    split
    · simpa [LoopResult.state] using h
    · split
      · simpa [LoopResult.state] using h
      · have hle := process_page_rows_fc_le t kw p.rows s.fc s.pc s.res h
        split
        · simpa [LoopResult.state] using hle
        · split
          · exact ih _ _ hle
          · simpa [LoopResult.state] using hle

theorem sessionLoop_len (t mp : Nat) (kw m : String) :
    ∀ (ps : List PageOutcome) (fa : Option Nat) (s : LoopState),
    s.res.length = s.fc →
    ((sessionLoop t mp kw m ps fa s).state).res.length
      = ((sessionLoop t mp kw m ps fa s).state).fc := by
  intro ps
  induction ps with
  | nil => intro fa s h; simpa [sessionLoop, LoopResult.state] using h
  | cons p rest ih =>
    intro fa s h
    simp only [sessionLoop]
    split
    · simpa [LoopResult.state] using h
    · split
      · simpa [LoopResult.state] using h
      · have hl := process_page_rows_len t kw p.rows s.fc s.pc s.res
        have h2 : (process_page_rows t kw p.rows s.fc s.pc s.res).2.2.length
            = (process_page_rows t kw p.rows s.fc s.pc s.res).1 := by omega
        split
        · simpa [LoopResult.state] using h2
        · split
          · exact ih _ _ h2
          · simpa [LoopResult.state] using h2

theorem sessionLoop_page_bounds (t mp : Nat) (kw m : String) :
    ∀ (ps : List PageOutcome) (fa : Option Nat) (s : LoopState),
    s.visited = s.page → s.processedPages + 1 = s.page → s.page ≤ mp + 1 →
    ((sessionLoop t mp kw m ps fa s).state).page ≤ mp + 1
    ∧ ((sessionLoop t mp kw m ps fa s).state).visited
        = ((sessionLoop t mp kw m ps fa s).state).page
    ∧ ((sessionLoop t mp kw m ps fa s).state).processedPages ≤ mp := by
  intro ps
  induction ps with
  | nil =>
    intro fa s h1 h2 h3
    simp only [sessionLoop, LoopResult.state]
    exact ⟨h3, h1, by omega⟩
  | cons p rest ih =>
    intro fa s h1 h2 h3
    simp only [sessionLoop]
    split
    · simp only [LoopResult.state]
      exact ⟨h3, h1, by omega⟩
    · split
      · simp only [LoopResult.state]
        exact ⟨h3, h1, by omega⟩
      · rename_i hguard hfa
        have hpage : s.page ≤ mp := by
          rcases Nat.lt_or_ge mp s.page with hlt | hge
          · exact absurd (Or.inr hlt) hguard
          · exact hge
        split
        · simp only [LoopResult.state]
          exact ⟨h3, h1, by omega⟩
        · split
          · exact ih _ _ (by simp [h1]) (by simp; omega) (by simp; omega)
          · simp only [LoopResult.state]
            exact ⟨h3, h1, by omega⟩

/-! Concrete fixtures used by witnesses and counterexamples. -/

/-- A row that extracts and reads its detail pane successfully. -/
def rowA : Row := Row.withDetail ⟨"1. HD", "2023/1", "2024/10", "01.01.2024"⟩ (.text "metin A")

/-- A second successful row with a distinct case id. -/
def rowB : Row := Row.withDetail ⟨"1. HD", "2023/2", "2024/20", "02.01.2024"⟩ (.text "metin B")

/-- Scenario-C pages: page 1 serves two good rows and an enabled next-page
control; page 2 exists but the session faults before processing it. -/
def c1pages : List PageOutcome :=
  [⟨[rowA, rowB], .enabled⟩, ⟨[rowA], .disabled⟩]

/-- Scenario-C script: results load, two items are collected on page 1, and an
unhandled fault hits at the start of the second loop iteration (page 2). -/
def c1script : SessionScript := SessionScript.run true c1pages (some 1) "boom"

/-- Pages for the C4 counterexample: one permitted page with one row and an
enabled next control, then a further page. -/
def c4pages : List PageOutcome := [⟨[rowA], .enabled⟩, ⟨[], .disabled⟩]

/-- C1: the spec claims a session that terminates in Failed returns every
ResultItem collected before the fault. The code returns the literal empty
list at search_logic.py:218: with two items collected on page 1 and a fatal
fault on page 2, the returned tuple carries no results at all even though the
loop state held 2 items at the fault. -/
theorem C1_counterexample :
    (search_single_keyword 3 5 "k" c1script).success = false
    ∧ (search_single_keyword 3 5 "k" c1script).results = []
    ∧ ((sessionLoop 3 5 "k" "boom" c1pages (some 1) initLoopState).state).res.length = 2
    ∧ (search_single_keyword 3 5 "k" c1script).results
        ≠ ((sessionLoop 3 5 "k" "boom" c1pages (some 1) initLoopState).state).res := by
  decide

/-- C1 (amended): a session that terminates in the Failed state
(success = false) returns an empty result list — whatever was collected
before the fault is discarded, so it cannot appear in the aggregate. -/
theorem C1_failed_session_returns_empty (target maxPages : Nat) (kw : String)
    (script : SessionScript)
    (h : (search_single_keyword target maxPages kw script).success = false) :
    (search_single_keyword target maxPages kw script).results = [] := by
  cases script with
  | initFail msg => rfl
  | run appear pages fa m =>
    cases appear with
    | false => simp [search_single_keyword] at h
    | true =>
      simp only [search_single_keyword] at h ⊢
      split at h
      · simp at h
      · rename_i heq
        simp [heq]

/-- C1 witness: a concrete failed session (driver creation fails) returns an
empty result list. -/
theorem C1_witness :
    (search_single_keyword 3 5 "k" (SessionScript.initFail "grid down")).results = [] :=
  C1_failed_session_returns_empty 3 5 "k" (SessionScript.initFail "grid down") rfl

/-- C3: found_count is monotonically non-decreasing across row processing and
across the page loop, never exceeds the larger of its entry value and the
target (hence never exceeds the target when started at 0), row processing
returns immediately once found_count has reached the target, and the
session's returned result list has length at most the target. -/
theorem C3_found_count_bounded (target maxPages : Nat) (kw m : String)
    (rows : List Row) (fc n : Nat) (pc : List String) (res : List ResultItem)
    (pages : List PageOutcome) (fa : Option Nat) (script : SessionScript) :
    fc ≤ (process_page_rows target kw rows fc pc res).1
    ∧ (process_page_rows target kw rows fc pc res).1 ≤ max fc target
    ∧ process_page_rows target kw rows (target + n) pc res = (target + n, pc, res)
    ∧ ((sessionLoop target maxPages kw m pages fa initLoopState).state).fc ≤ target
    ∧ (search_single_keyword target maxPages kw script).results.length ≤ target := by
  refine ⟨process_page_rows_fc_mono target kw rows fc pc res, ?_, ?_, ?_, ?_⟩
  · rcases Nat.le_total fc target with h | h
    · exact Nat.le_trans (process_page_rows_fc_le target kw rows fc pc res h)
        (Nat.le_max_right _ _)
    · rw [process_page_rows_stop target kw rows fc pc res h]
      exact Nat.le_max_left _ _
  · exact process_page_rows_stop target kw rows (target + n) pc res (Nat.le_add_right _ _)
  · exact sessionLoop_fc_le target maxPages kw m pages fa initLoopState (Nat.zero_le _)
  · cases script with
    | initFail msg => simp [search_single_keyword]
    | run appear pages2 fa2 m2 =>
      cases appear with
      | false => simp [search_single_keyword]
      | true =>
        simp only [search_single_keyword]
        split
        · rename_i s heq
          have hlen := sessionLoop_len target maxPages kw m2 pages2 fa2 initLoopState rfl
          have hfc := sessionLoop_fc_le target maxPages kw m2 pages2 fa2 initLoopState
            (Nat.zero_le _)
          rw [heq] at hlen hfc
          simp only [LoopResult.state] at hlen hfc
          simpa [hlen] using hfc
        · simp

/-- C4: the spec claims page_number never exceeds max_pages_to_search and no
session navigates to more than that many pages. With max_pages = 1 and an
unmet target, the loop clicks the next-page control while on the last
permitted page (search_logic.py:201) and increments page_number past the
ceiling: the session navigates to 2 pages and ends with page_number = 2. -/
theorem C4_counterexample :
    ((sessionLoop 3 1 "k" "e" c4pages none initLoopState).state).page = 2
    ∧ ((sessionLoop 3 1 "k" "e" c4pages none initLoopState).state).visited = 2
    ∧ ¬ ((sessionLoop 3 1 "k" "e" c4pages none initLoopState).state).page ≤ 1 := by
  decide

/-- C4 (amended): page_number starts at 1 and never exceeds
max_pages_to_search + 1; at most max_pages_to_search pages have their rows
processed, and the only visit beyond the ceiling is the single navigation
triggered from the last permitted page, after which the loop exits without
processing the extra page (visited = final page_number ≤ max + 1). -/
theorem C4_page_ceiling (target maxPages : Nat) (kw m : String)
    (pages : List PageOutcome) (fa : Option Nat) :
    initLoopState.page = 1
    ∧ ((sessionLoop target maxPages kw m pages fa initLoopState).state).page
        ≤ maxPages + 1
    ∧ ((sessionLoop target maxPages kw m pages fa initLoopState).state).visited
        = ((sessionLoop target maxPages kw m pages fa initLoopState).state).page
    ∧ ((sessionLoop target maxPages kw m pages fa initLoopState).state).processedPages
        ≤ maxPages := by
  have h := sessionLoop_page_bounds target maxPages kw m pages fa initLoopState
    rfl rfl (Nat.le_add_left 1 maxPages)
  exact ⟨rfl, h.1, h.2.1, h.2.2⟩

/-- C5: a session whose results container times out returns
(keyword, [], True, "Sonuç bulunamadı") — success with zero results, not an
error — and such a completion contributes nothing to the aggregated result
list, while its keyword's outcome entry records success with count 0. -/
theorem C5_no_results_is_success (target maxPages : Nat) (kw m : String)
    (pages : List PageOutcome) (fa : Option Nat)
    (pre post : List SessionResult) :
    search_single_keyword target maxPages kw (SessionScript.run false pages fa m)
        = ⟨kw, [], true, "Sonuç bulunamadı"⟩
    ∧ aggFinalResults (pre ++ ⟨kw, [], true, "Sonuç bulunamadı"⟩ :: post)
        = aggFinalResults (pre ++ post)
    ∧ (kw, Outcome.mk true 0 "Sonuç bulunamadı")
        ∈ mkSearchDetails (pre ++ ⟨kw, [], true, "Sonuç bulunamadı"⟩ :: post) := by
  refine ⟨rfl, ?_, ?_⟩
  · simp [aggFinalResults, allResults]
  · simp [mkSearchDetails]

/-- C10: a row whose detail-pane read times out (or fails) is not skipped:
get_decision_text returns the fixed placeholder, and process_page_rows still
builds the ResultItem, records the case id and increments found_count —
exactly the same state transition as a successfully read row. -/
theorem C10_placeholder_rows_counted (target : Nat) (kw : String)
    (rest : List Row) (fc : Nat) (pc : List String) (res : List ResultItem)
    (d : RowData) (hlt : fc < target) (hnew : caseId d ∉ pc) :
    process_page_rows target kw (Row.withDetail d .timeout :: rest) fc pc res
        = process_page_rows target kw rest (fc + 1) (pc ++ [caseId d])
            (res ++ [mkResultItem d "Karar metni bulunamadı." kw])
    ∧ process_page_rows target kw (Row.withDetail d .err :: rest) fc pc res
        = process_page_rows target kw rest (fc + 1) (pc ++ [caseId d])
            (res ++ [mkResultItem d "Karar metni alınamadı." kw])
    ∧ get_decision_text .timeout = "Karar metni bulunamadı."
    ∧ get_decision_text .err = "Karar metni alınamadı." := by
  have h1 : ¬ fc ≥ target := by omega
  refine ⟨?_, ?_, rfl, rfl⟩ <;>
    simp [process_page_rows, h1, hnew, get_decision_text]

/-- C10 witness: a concrete timed-out row at found_count 0 with an empty
processed set is appended with the placeholder text and counted. -/
theorem C10_witness :
    process_page_rows 1 "k"
        [Row.withDetail ⟨"1. HD", "2023/1", "2024/10", "01.01.2024"⟩ .timeout] 0 [] []
      = process_page_rows 1 "k" [] 1
          ([] ++ [caseId ⟨"1. HD", "2023/1", "2024/10", "01.01.2024"⟩])
          ([] ++ [mkResultItem ⟨"1. HD", "2023/1", "2024/10", "01.01.2024"⟩
              "Karar metni bulunamadı." "k"]) :=
  (C10_placeholder_rows_counted 1 "k" [] 0 [] []
    ⟨"1. HD", "2023/1", "2024/10", "01.01.2024"⟩ (by decide) (by decide)).1

/-! Lemmas about aggregation and dedup. -/

theorem any_map_comp {α β : Type} (f : α → β) (p : β → Bool) :
    ∀ (l : List α), (l.map f).any p = l.any fun a => p (f a) := by
  intro l
  induction l with
  | nil => rfl
  | cons x xs ih => simp [ih]

theorem aggFold_map_snd :
    ∀ (l : List ResultItem) (acc : List ResultItem),
    (aggFold l (acc.map fun a => (dedupKey a, enrich a))).map Prod.snd
      = (firstOccAux dedupKey l acc).map enrich := by
  intro l
  induction l with
  | nil => intro acc; simp [aggFold, firstOccAux]
  | cons r rs ih =>
    intro acc
    simp only [aggFold, firstOccAux]
    have hcond : ((acc.map fun a => (dedupKey a, enrich a)).any
          fun p => p.1 = dedupKey r)
        = (acc.any fun a => dedupKey a = dedupKey r) := by
      exact any_map_comp (fun a => (dedupKey a, enrich a))
        (fun p => decide (p.1 = dedupKey r)) acc
    rw [hcond]
    split
    · exact ih acc
    · rw [show (acc.map fun a => (dedupKey a, enrich a)) ++ [(dedupKey r, enrich r)]
            = (acc ++ [r]).map fun a => (dedupKey a, enrich a) by simp]
      exact ih (acc ++ [r])

theorem firstOccAux_key_nodup (key : ResultItem → String) :
    ∀ (l : List ResultItem) (acc : List ResultItem),
    ((acc.map key).Nodup) → (((firstOccAux key l acc).map key)).Nodup := by
  intro l
  induction l with
  | nil => intro acc h; simpa [firstOccAux] using h
  | cons r rs ih =>
    intro acc h
    simp only [firstOccAux]
    split
    · exact ih acc h
    · rename_i hnot
      refine ih (acc ++ [r]) ?_
      simp only [List.map_append, List.map_cons, List.map_nil]
      rw [List.nodup_append]
      refine ⟨h, List.nodup_singleton _, ?_⟩
      intro x hx
      simp only [List.mem_singleton]
      intro hxr
      rcases List.mem_map.mp hx with ⟨a, ha, rfl⟩
      have : acc.any (fun a => key a = key r) = true :=
        List.any_eq_true.mpr ⟨a, ha, decide_eq_true hxr⟩
      simp [this] at hnot

/-- C2: the spec claims the aggregate is deduplicated by the composite case
identifier (case_number + decision_number). The code keys the dedup dict by
result_dict.get("case_number", result_dict.get("esas_no", "unknown")) — which
is esas_no alone (main.py:170) — so two results sharing esas_no but differing
in karar_no collapse to one entry, while the composite-key dedup the claim
describes would keep both. -/
theorem C2_counterexample :
    aggFinalResults [⟨"k",
        [⟨"1. HD", "2023/1", "2024/10", "t1", "m1", "k"⟩,
         ⟨"1. HD", "2023/1", "2024/20", "t2", "m2", "k"⟩], true, "2 sonuç bulundu."⟩]
      ≠ specAggFinalResults [⟨"k",
        [⟨"1. HD", "2023/1", "2024/10", "t1", "m1", "k"⟩,
         ⟨"1. HD", "2023/1", "2024/20", "t2", "m2", "k"⟩], true, "2 sonuç bulundu."⟩]
    ∧ (aggFinalResults [⟨"k",
        [⟨"1. HD", "2023/1", "2024/10", "t1", "m1", "k"⟩,
         ⟨"1. HD", "2023/1", "2024/20", "t2", "m2", "k"⟩], true, "2 sonuç bulundu."⟩]).length = 1
    ∧ (specAggFinalResults [⟨"k",
        [⟨"1. HD", "2023/1", "2024/10", "t1", "m1", "k"⟩,
         ⟨"1. HD", "2023/1", "2024/20", "t2", "m2", "k"⟩], true, "2 sonuç bulundu."⟩]).length = 2 := by
  decide

/-- C2 (amended): the final aggregated list is the concatenation of the
completed sessions' results in completion order, deduplicated first-seen-wins
by case_number (esas_no) alone: it consists of the enrichment of exactly the
first occurrence of each esas_no, no esas_no (= case_number field) appears
twice, and every raw completion keeps its own full pre-dedup count in its
search_details entry. -/
theorem C2_dedup_by_case_number (completions : List SessionResult) :
    aggFinalResults completions
        = (firstOccurrence dedupKey (allResults completions)).map enrich
    ∧ ((aggFinalResults completions).map fun e => e.case_number).Nodup
    ∧ (∀ c ∈ completions,
        (c.keyword, Outcome.mk c.success c.results.length c.message)
          ∈ mkSearchDetails completions) := by
  have heq : aggFinalResults completions
      = (firstOccurrence dedupKey (allResults completions)).map enrich := by
    have h := aggFold_map_snd (allResults completions) []
    simpa [aggFinalResults, firstOccurrence] using h
  refine ⟨heq, ?_, ?_⟩
  · rw [heq]
    have hkey : ((firstOccurrence dedupKey (allResults completions)).map enrich).map
          (fun e => e.case_number)
        = (firstOccurrence dedupKey (allResults completions)).map dedupKey := by
      rw [List.map_map]
      exact List.map_congr_left fun a _ => rfl
    rw [hkey]
    exact firstOccAux_key_nodup dedupKey (allResults completions) [] (by simp)
  · intro c hc
    exact List.mem_map_of_mem _ hc

/-! Lemmas and fixtures for the cache layer. -/

theorem lookupA_append_new {α : Type} :
    ∀ (l : List (String × α)) (k : String) (v : α),
    lookupA l k = none → lookupA (l ++ [(k, v)]) k = some v := by
  intro l
  induction l with
  | nil => intro k v _; simp [lookupA]
  | cons p rest ih =>
    intro k v h
    obtain ⟨k0, v0⟩ := p
    simp only [lookupA] at h
    by_cases hk : k0 = k
    · rw [if_pos hk] at h; exact absurd h (by simp)
    · rw [if_neg hk] at h
      simp only [List.cons_append, lookupA, if_neg hk]
      exact ih k v h

/-- Both calls of a repeated request, threading the shared state: the pair
(first call, second call). -/
def callTwice (st : ScraperState) (now1 : Nat) (kws : List String)
    (comps1 : List SessionResult) (e1 now2 : Nat)
    (comps2 : List SessionResult) (e2 : Nat) : CallResult × CallResult :=
  (searchCall st now1 kws comps1 e1,
   searchCall (searchCall st now1 kws comps1 e1).state now2 kws comps2 e2)

/-- A session completion used in concrete cache scenarios. -/
def compsA : List SessionResult :=
  [⟨"a", [⟨"1. HD", "2023/1", "2024/10", "01.01.2024", "metin", "a"⟩], true,
    "1 sonuç bulundu."⟩]

/-- First call of the C6 counterexample: Firestore available, both caches
empty. -/
def c6first : CallResult := searchCall ⟨true, [], []⟩ 0 ["a"] compsA 5

/-- Second identical request 10 ticks later (well inside the 7-day TTL). -/
def c6second : CallResult := searchCall c6first.state 10 ["a"] [] 7

/-- C6: the spec claims the second identical call within the TTL window
returns search_details identical to the first call's. On the Firestore
cache-hit path the code returns search_details = {} (main.py:124), so the
details differ from the first call's non-empty map (the results and the
short-circuit of the driver do hold). -/
theorem C6_counterexample :
    c6second.response.results = c6first.response.results
    ∧ c6second.driverInvoked = false
    ∧ c6first.response.search_details
        = [("a", ⟨true, 1, "1 sonuç bulundu."⟩)]
    ∧ c6second.response.search_details = []
    ∧ c6second.response.search_details ≠ c6first.response.search_details
    ∧ 10 - 0 ≤ fsTTL := by
  decide

/-- C6 (amended): in the in-memory fallback mode (no Firestore client), a
second identical request whose first call's write was accepted (cache below
capacity) returns the first call's response verbatim — identical results and
search_details (and even processing_time) — and does not run any session, so
the Page Automation Driver is not invoked; the first call did run the
dispatcher. On the Firestore path the second call still returns identical
results without invoking the driver, but search_details comes back empty. -/
theorem C6_second_call_cached (fsC : List (String × FsEntry))
    (mem : List (String × SearchResponse)) (kws : List String)
    (comps1 comps2 : List SessionResult) (e1 e2 now1 now2 : Nat)
    (hroom : mem.length < 100)
    (hmiss : lookupA mem (genCacheKey kws) = none) :
    (callTwice ⟨false, fsC, mem⟩ now1 kws comps1 e1 now2 comps2 e2).2.response
        = (callTwice ⟨false, fsC, mem⟩ now1 kws comps1 e1 now2 comps2 e2).1.response
    ∧ (callTwice ⟨false, fsC, mem⟩ now1 kws comps1 e1 now2 comps2 e2).2.driverInvoked
        = false
    ∧ (callTwice ⟨false, fsC, mem⟩ now1 kws comps1 e1 now2 comps2 e2).1.driverInvoked
        = true := by
  simp only [callTwice, searchCall, Bool.false_eq_true, if_false, hmiss, if_pos hroom]
  rw [lookupA_append_new mem (genCacheKey kws) _ hmiss]
  simp

/-- C6 witness: a concrete repeated request in fallback mode returns the
identical response without invoking the driver. -/
theorem C6_witness :
    (callTwice ⟨false, [], []⟩ 0 ["a"] compsA 5 3 [] 7).2.response
        = (callTwice ⟨false, [], []⟩ 0 ["a"] compsA 5 3 [] 7).1.response
    ∧ (callTwice ⟨false, [], []⟩ 0 ["a"] compsA 5 3 [] 7).2.driverInvoked = false :=
  ⟨(C6_second_call_cached [] [] ["a"] compsA [] 5 7 0 3 (by decide) (by decide)).1,
   (C6_second_call_cached [] [] ["a"] compsA [] 5 7 0 3 (by decide) (by decide)).2.1⟩

/-- First call of the C7 counterexample: fallback mode, empty caches, at
time 0. -/
def c7first : CallResult := searchCall ⟨false, [], []⟩ 0 ["a"] compsA 5

/-- The same request again at time 2·fsTTL — older than every TTL configured
anywhere in the system. -/
def c7second : CallResult := searchCall c7first.state (fsTTL + fsTTL) ["a"] [] 7

/-- C7: the spec claims an entry older than its TTL is treated as a miss on
every read path of the cache layer. The in-memory read path (main.py:134-137)
performs no expiry check at all: a result cached at time 0 is still served at
age 2·fsTTL (twice the only TTL the system configures), without re-running
the scrape. -/
theorem C7_counterexample :
    c7second.driverInvoked = false
    ∧ c7second.response.results = c7first.response.results
    ∧ c7second.response.results ≠ []
    ∧ fsTTL < (fsTTL + fsTTL) - 0 := by
  decide

/-- C7 (amended): only the Firestore read path enforces the TTL: whenever
get_search_cache returns an entry, now is strictly before its expires_at
(equivalently now - created_at < ttl for entries it stored itself); an
expired document is deleted and reported as a miss. The in-memory fallback
read path stores no timestamps and serves entries regardless of age. -/
theorem C7_fs_never_returns_expired (cache : List (String × FsEntry))
    (key : String) (now : Nat) (e : FsEntry)
    (h : (fsGet cache key now).1 = some e) : now < e.expires_at := by
  cases h0 : lookupA cache key with
  | none => simp [fsGet, h0] at h
  | some e0 =>
    by_cases hn : now < e0.expires_at
    · have hv : (fsGet cache key now).1 = some e0 := by
        simp [fsGet, h0, hn]
      rw [hv] at h
      rw [← Option.some.inj h]
      exact hn
    · have hv : (fsGet cache key now).1 = none := by
        simp [fsGet, h0, hn]
      rw [hv] at h
      simp at h

/-- C7 witness: a concrete unexpired entry is returned and satisfies
now < expires_at. -/
theorem C7_witness : (3 : Nat) < (⟨[], 0, 1, 0, 10⟩ : FsEntry).expires_at :=
  C7_fs_never_returns_expired [("k", ⟨[], 0, 1, 0, 10⟩)] "k" 3
    ⟨[], 0, 1, 0, 10⟩ (by decide)

/-- C8: when the in-memory cache already holds 100 entries and the request's
key is new, the write is rejected: the cache (and the Firestore store, absent
here) is left exactly as it was, every previously stored key is still
retrievable with its old value, the new key is not stored, and the caller
still receives the normal success response — identical to the response an
uncapped cache would have produced. -/
theorem C8_capacity_rejects_new_key (st : ScraperState) (now : Nat)
    (keywords : List String) (completions : List SessionResult) (elapsed : Nat)
    (hfs : st.fsOn = false)
    (hfull : st.memCache.length = 100)
    (hnew : lookupA st.memCache (genCacheKey keywords) = none) :
    (searchCall st now keywords completions elapsed).state.memCache = st.memCache
    ∧ (searchCall st now keywords completions elapsed).state.fsCache = st.fsCache
    ∧ (searchCall st now keywords completions elapsed).response.success = true
    ∧ lookupA (searchCall st now keywords completions elapsed).state.memCache
        (genCacheKey keywords) = none
    ∧ (∀ k, lookupA (searchCall st now keywords completions elapsed).state.memCache k
        = lookupA st.memCache k)
    ∧ (searchCall st now keywords completions elapsed).response
        = (searchCall ⟨false, st.fsCache, []⟩ now keywords completions elapsed).response := by
  obtain ⟨fsOn, fsC, mem⟩ := st
  simp only at hfs hfull hnew
  subst hfs
  have hnotroom : ¬ mem.length < 100 := by omega
  simp only [searchCall, Bool.false_eq_true, if_false, hnew, if_neg hnotroom,
    lookupA]
  simp [hnew]

/-- A placeholder cached response used to fill the cache to capacity. -/
def dummyResponse : SearchResponse := ⟨[], true, "", [], 0, 0, 0⟩

/-- An in-memory cache at its 100-entry capacity. -/
def fullMemCache : List (String × SearchResponse) :=
  List.replicate 100 ("k", dummyResponse)

/-- C8 witness: with a concrete full cache and a new key, the write is
rejected and the response still succeeds. -/
theorem C8_witness :
    (searchCall ⟨false, [], fullMemCache⟩ 0 ["a"] [] 0).state.memCache = fullMemCache
    ∧ (searchCall ⟨false, [], fullMemCache⟩ 0 ["a"] [] 0).response.success = true :=
  ⟨(C8_capacity_rejects_new_key ⟨false, [], fullMemCache⟩ 0 ["a"] [] 0 rfl
      (by simp [fullMemCache]) (by decide)).1,
   (C8_capacity_rejects_new_key ⟨false, [], fullMemCache⟩ 0 ["a"] [] 0 rfl
      (by simp [fullMemCache]) (by decide)).2.2.1⟩

/-- C9: for a dispatch over a non-empty keyword set, in every pool state
reachable from submitting all keywords with max_workers = min(|keywords|, 10),
the number of simultaneously running sessions never exceeds
min(|keywords|, 10) (extra keywords stay queued until a slot frees), the
keywords are conserved across queued/running/completed, and a drained pool
has completed every keyword exactly once (one session per keyword). -/
theorem C9_concurrency_bound (keywords : List String) (s : PoolState)
    (hne : keywords ≠ [])
    (hreach : PoolReach (dispatcherMaxWorkers keywords) (initPool keywords) s) :
    s.running.length ≤ min keywords.length 10
    ∧ List.Perm (s.pending ++ s.running ++ s.done) keywords
    ∧ (s.pending = [] → s.running = [] → List.Perm s.done keywords) := by
  have main : s.running.length ≤ dispatcherMaxWorkers keywords
      ∧ List.Perm (s.pending ++ s.running ++ s.done) keywords := by
    induction hreach with
    | refl => simp [initPool]
    | tail hr step ih =>
      obtain ⟨ih1, ih2⟩ := ih
      cases step with
      | start p ps running done hlt =>
        constructor
        · simpa using hlt
        · refine List.Perm.trans ?_ ih2
          have hc := List.perm_iff_count.mp (List.Perm.refl (p :: ps))
          refine List.perm_iff_count.mpr fun a => ?_
          simp [List.count_append, List.count_cons]
          omega
      | finish x r1 r2 pending done =>
        constructor
        · simp only [List.length_append] at ih1 ⊢
          simp [List.length_cons] at ih1
          omega
        · refine List.Perm.trans ?_ ih2
          refine List.perm_iff_count.mpr fun a => ?_
          simp [List.count_append, List.count_cons]
          omega
  refine ⟨by simpa [dispatcherMaxWorkers] using main.1, main.2, ?_⟩
  intro hp hr
  have h2 := main.2
  rw [hp, hr] at h2
  simpa using h2

/-- C9 witness: with two keywords, the state after starting the first session
is reachable and respects the bound. -/
theorem C9_witness :
    (⟨["b"], ["a"], []⟩ : PoolState).running.length
      ≤ min (["a", "b"] : List String).length 10 :=
  (C9_concurrency_bound ["a", "b"] ⟨["b"], ["a"], []⟩ (by simp)
    (Relation.ReflTransGen.single
      (PoolStep.start "a" ["b"] [] [] (by simp [dispatcherMaxWorkers])))).1

end Yargitay
